import Mathlib

/-!
Verification of the user-scoped recipe/tag/ingredient API contract.

The repository ships the URL router (`app/recipe/urls.py`), the calc test
module, and the test suites; the model layer (`core/models.py`), views,
serializers and `app/calc.py` are not in the tree.  Definitions below embed
the router verbatim from `urls.py`; the store operations are modelled from
the specification (account store, entity repositories, serializer
validation, access-controlled endpoints), with the error class of
account creation pinned by `core/tests/test_models.py` which asserts
`ValueError`.
-/

namespace RecipeApi

/-- Lowercase a string character by character (email normalization). -/
def lowerString (s : String) : String := ⟨s.data.map Char.toLower⟩

/-- User account record: identifier and normalized email.  Password hashing
is delegated to an external collaborator and carries no claim here, so the
hash is not modelled. -/
structure User where
  id : Nat
  email : String
deriving DecidableEq

/-- Tag entity: name and owning user reference. -/
structure Tag where
  id : Nat
  name : String
  user : Nat
deriving DecidableEq

/-- Ingredient entity: name and owning user reference. -/
structure Ingredient where
  id : Nat
  name : String
  user : Nat
deriving DecidableEq

/-- Recipe entity: title, minutes, decimal cost, owner, and the associated
tag/ingredient id lists (many-to-many association rows, in the order the
rows were written). -/
structure Recipe where
  id : Nat
  title : String
  time_minutes : Nat
  cost : Rat
  user : Nat
  tags : List Nat
  ingredients : List Nat
deriving DecidableEq

/-- The persistent store: all rows plus per-table auto-increment counters. -/
structure Store where
  users : List User
  tags : List Tag
  ingredients : List Ingredient
  recipes : List Recipe
  nextUserId : Nat
  nextTagId : Nat
  nextIngredientId : Nat
  nextRecipeId : Nat
deriving DecidableEq

/-- Error raised by account creation.  The repository's own test
(`test_new_user_invalid_email`) asserts `ValueError` for a missing email;
the spec's taxonomy also names `ValidationError`, and a duplicate email
violates the case-insensitive uniqueness invariant. -/
inductive CreateUserError where
  | valueError
  | validationError
  | duplicateEmail
deriving DecidableEq

/-- Error raised by the REST endpoints: field validation failure (client
error 400) or a missing / not-owned entity (404). -/
inductive ApiError where
  | validationError
  | notFound
deriving DecidableEq

/-- HTTP status code of an endpoint error. -/
def httpStatus : ApiError → Nat
  | .validationError => 400
  | .notFound => 404

/-- Modelled from the spec: `createUser` of the account store
(`core/models.py` is absent from src/).  Fails if the email is absent or
empty — with `valueError`, the error class asserted by
`core/tests/test_models.py::test_new_user_invalid_email` — normalizes the
email to lowercase before storage, and enforces case-insensitive email
uniqueness.  The password goes to the external hasher and influences none
of the fields modelled here.  Returns the response together with the
(possibly unchanged) store. -/
def createUser (email : Option String) (_password : String) (s : Store) :
    Except CreateUserError User × Store :=
  match email with
  | none => (.error .valueError, s)
  | some e =>
    if e = "" then (.error .valueError, s)
    else
      let norm := lowerString e
      if s.users.any (fun u => u.email = norm) then (.error .duplicateEmail, s)
      else
        let u : User := ⟨s.nextUserId, norm⟩
        (.ok u, { s with users := s.users ++ [u], nextUserId := s.nextUserId + 1 })

/-- Insert `x` into `l` before the first element whose key is not strictly
greater than `x`'s key.  Used to build a stable descending sort. -/
def insertDescBy {α β : Type} [LinearOrder β] (key : α → β) (x : α) :
    List α → List α
  | [] => [x]
  | y :: ys => if key x < key y then y :: insertDescBy key x ys else x :: y :: ys

/-- Stable insertion sort, descending by `key`: elements with equal keys
keep their relative order. -/
def sortDescBy {α β : Type} [LinearOrder β] (key : α → β) : List α → List α
  | [] => []
  | x :: xs => insertDescBy key x (sortDescBy key xs)

/-- Modelled from the spec: the tag list endpoint (`recipe/views.py` is
absent from src/) returns the caller's tags ordered by name descending. -/
def listTags (caller : Nat) (s : Store) : List Tag :=
  sortDescBy (fun t => t.name) (s.tags.filter (fun t => t.user == caller))

/-- Modelled from the spec: the ingredient list endpoint returns the
caller's ingredients ordered by name descending. -/
def listIngredients (caller : Nat) (s : Store) : List Ingredient :=
  sortDescBy (fun i => i.name) (s.ingredients.filter (fun i => i.user == caller))

/-- Modelled from the spec: the recipe list endpoint returns the caller's
recipes ordered by id descending. -/
def listRecipes (caller : Nat) (s : Store) : List Recipe :=
  sortDescBy (fun r => r.id) (s.recipes.filter (fun r => r.user == caller))

/-- Modelled from the spec: `POST /recipe/tags/` creates a tag owned by the
caller; an empty name is rejected with a validation error (client error
400) and the store is left untouched. -/
def postTag (caller : Nat) (name : String) (s : Store) :
    Except ApiError Tag × Store :=
  if name = "" then (.error .validationError, s)
  else
    let t : Tag := ⟨s.nextTagId, name, caller⟩
    (.ok t, { s with tags := s.tags ++ [t], nextTagId := s.nextTagId + 1 })

/-- Modelled from the spec: `POST /recipe/ingredients/` creates an
ingredient owned by the caller; an empty name is rejected with a validation
error and the store is left untouched. -/
def postIngredient (caller : Nat) (name : String) (s : Store) :
    Except ApiError Ingredient × Store :=
  if name = "" then (.error .validationError, s)
  else
    let i : Ingredient := ⟨s.nextIngredientId, name, caller⟩
    (.ok i, { s with ingredients := s.ingredients ++ [i],
                     nextIngredientId := s.nextIngredientId + 1 })

/-- Wire payload of a recipe create/update request: every field optional so
the same shape serves POST, PUT and PATCH. -/
structure RecipeInput where
  title : Option String
  time_minutes : Option Nat
  cost : Option Rat
  tags : Option (List Nat)
  ingredients : Option (List Nat)
deriving DecidableEq

/-- Modelled from the spec: `POST /recipe/recipes/` requires title,
time_minutes and cost, rejects an empty title with a validation error (no
mutation), stamps the caller as owner, and stores the association id lists
as supplied (empty when omitted). -/
def postRecipe (caller : Nat) (p : RecipeInput) (s : Store) :
    Except ApiError Recipe × Store :=
  match p.title, p.time_minutes, p.cost with
  | some t, some m, some c =>
    if t = "" then (.error .validationError, s)
    else
      let r : Recipe :=
        ⟨s.nextRecipeId, t, m, c, caller, p.tags.getD [], p.ingredients.getD []⟩
      (.ok r, { s with recipes := s.recipes ++ [r],
                       nextRecipeId := s.nextRecipeId + 1 })
  | _, _, _ => (.error .validationError, s)

/-- Modelled from the spec: `GET /recipe/recipes/{id}/` — lookup filtered
to the caller's own recipes; another user's recipe is indistinguishable
from a missing one (404). -/
def getRecipe (caller : Nat) (rid : Nat) (s : Store) : Except ApiError Recipe :=
  match s.recipes.find? (fun r => r.id == rid && r.user == caller) with
  | none => .error .notFound
  | some r => .ok r

/-- Modelled from the spec: `PATCH /recipe/recipes/{id}/` — partial update:
only supplied fields are overwritten (a supplied `tags` list replaces the
full tag set); owner and identifier never change; empty supplied title is
rejected with no mutation; a recipe not owned by the caller is 404. -/
def patchRecipe (caller : Nat) (rid : Nat) (p : RecipeInput) (s : Store) :
    Except ApiError Recipe × Store :=
  match s.recipes.find? (fun r => r.id == rid && r.user == caller) with
  | none => (.error .notFound, s)
  | some r =>
    let newTitle := p.title.getD r.title
    if newTitle = "" then (.error .validationError, s)
    else
      let r' : Recipe :=
        ⟨r.id, newTitle, p.time_minutes.getD r.time_minutes,
         p.cost.getD r.cost, r.user, p.tags.getD r.tags,
         p.ingredients.getD r.ingredients⟩
      (.ok r', { s with recipes := s.recipes.map (fun x => if x.id == rid then r' else x) })

/-- Modelled from the spec: `PUT /recipe/recipes/{id}/` — full update:
title, time_minutes and cost are required and overwritten; an omitted
association field clears that association entirely; empty title is
rejected with no mutation; a recipe not owned by the caller is 404. -/
def putRecipe (caller : Nat) (rid : Nat) (p : RecipeInput) (s : Store) :
    Except ApiError Recipe × Store :=
  match s.recipes.find? (fun r => r.id == rid && r.user == caller) with
  | none => (.error .notFound, s)
  | some r =>
    match p.title, p.time_minutes, p.cost with
    | some t, some m, some c =>
      if t = "" then (.error .validationError, s)
      else
        let r' : Recipe := ⟨r.id, t, m, c, r.user, p.tags.getD [], p.ingredients.getD []⟩
        (.ok r', { s with recipes := s.recipes.map (fun x => if x.id == rid then r' else x) })
    | _, _, _ => (.error .validationError, s)

/-- Number of distinct tags associated with a recipe (`recipe.tags.count()`
counts association rows, which form a set). -/
def tagCount (r : Recipe) : Nat := r.tags.dedup.length

/-- Resource names registered on the `DefaultRouter` in
`src/app/recipe/urls.py` (the router registers only `tags`). -/
def routerRegistrations : List String := ["tags"]

/-- A resource name resolves under the `/recipe/` namespace iff it was
registered on the router. -/
def routeRegistered (resource : String) : Bool :=
  routerRegistrations.contains resource

/-- Modelled from the spec: `app/calc.py` is absent from src/; `add` is
pinned by `app/tests.py::test_add_numbers` (`add(3, 8) == 11`). -/
def add (x y : Int) : Int := x + y

/-- Modelled from the spec: `app/calc.py` is absent from src/; `subtract`
is pinned by `app/tests.py::test_subtract_numbers` (`subtract(5, 11) == 6`),
i.e. it returns its second argument minus its first. -/
def subtract (x y : Int) : Int := y - x

instance {ε α : Type} [DecidableEq ε] [DecidableEq α] :
    DecidableEq (Except ε α) := fun a b =>
  match a, b with
  | .error x, .error y =>
    if h : x = y then .isTrue (congrArg Except.error h)
    else .isFalse (fun hh => h (Except.error.inj hh))
  | .ok x, .ok y =>
    if h : x = y then .isTrue (congrArg Except.ok h)
    else .isFalse (fun hh => h (Except.ok.inj hh))
  | .error _, .ok _ => .isFalse (fun hh => Except.noConfusion hh)
  | .ok _, .error _ => .isFalse (fun hh => Except.noConfusion hh)

/-- Empty store, all auto-increment counters at 1. -/
def store0 : Store := ⟨[], [], [], [], 1, 1, 1, 1⟩

/-- Concrete store holding rows for two users (ids 1 and 2). -/
def storeTwoUsers : Store :=
  ⟨[⟨1, "a@a.com"⟩, ⟨2, "b@b.com"⟩],
   [⟨1, "Vegan", 1⟩, ⟨2, "Dessert", 2⟩],
   [⟨1, "Salt", 1⟩, ⟨2, "Durian", 2⟩],
   [⟨1, "Soup", 10, 5, 1, [], []⟩, ⟨2, "Pie", 20, 3, 2, [], []⟩],
   3, 3, 3, 3⟩

/-- Concrete store holding three tags owned by user 1 and no recipes. -/
def storeThreeTags : Store :=
  ⟨[⟨1, "a@a.com"⟩],
   [⟨10, "Main course", 1⟩, ⟨20, "Salty", 1⟩, ⟨30, "Dessert", 1⟩],
   [], [], 2, 31, 1, 1⟩

/-- Recipe row that already carries an associated tag. -/
def sampleRecipe : Recipe := ⟨1, "Sample recipe", 10, 5, 1, [1], []⟩

/-- Concrete store holding `sampleRecipe` (owner 1) and two tag rows. -/
def storeTaggedRecipe : Store :=
  ⟨[⟨1, "a@a.com"⟩], [⟨1, "Main course", 1⟩, ⟨2, "Curry", 1⟩], [],
   [sampleRecipe], 2, 3, 1, 2⟩

/-- User row produced by signing up with the test's mixed-case email. -/
def normalizedUser : User := ⟨1, "test@testinput.com"⟩

/-- Store state after that signup against the empty store. -/
def storeAfterSignup : Store := ⟨[normalizedUser], [], [], [], 2, 1, 1, 1⟩

theorem mem_insertDescBy {α β : Type} [LinearOrder β] (key : α → β) (x a : α)
    (l : List α) : a ∈ insertDescBy key x l ↔ a = x ∨ a ∈ l := by
  induction l with
  | nil => simp [insertDescBy]
  | cons y ys ih =>
    simp only [insertDescBy]
    split
    · simp only [List.mem_cons, ih]
      tauto
    · simp only [List.mem_cons]

theorem mem_sortDescBy {α β : Type} [LinearOrder β] (key : α → β) (a : α)
    (l : List α) : a ∈ sortDescBy key l ↔ a ∈ l := by
  induction l with
  | nil => simp [sortDescBy]
  | cons x xs ih =>
    simp only [sortDescBy, mem_insertDescBy, ih, List.mem_cons]

theorem pairwise_insertDescBy {α β : Type} [LinearOrder β] (key : α → β)
    (x : α) (l : List α) (h : l.Pairwise (fun a b => key b ≤ key a)) :
    (insertDescBy key x l).Pairwise (fun a b => key b ≤ key a) := by
  induction l with
  | nil => simp [insertDescBy]
  | cons y ys ih =>
    rw [List.pairwise_cons] at h
    simp only [insertDescBy]
    split
    · rename_i hlt
      rw [List.pairwise_cons]
      refine ⟨fun a ha => ?_, ih h.2⟩
      rcases (mem_insertDescBy key x a ys).1 ha with rfl | ha'
      · exact le_of_lt hlt
      · exact h.1 a ha'
    · rename_i hge
      rw [List.pairwise_cons]
      refine ⟨fun a ha => ?_, List.pairwise_cons.2 h⟩
      rcases List.mem_cons.1 ha with rfl | ha'
      · exact le_of_not_lt hge
      · exact le_trans (h.1 a ha') (le_of_not_lt hge)

theorem pairwise_sortDescBy {α β : Type} [LinearOrder β] (key : α → β)
    (l : List α) : (sortDescBy key l).Pairwise (fun a b => key b ≤ key a) := by
  induction l with
  | nil => simp [sortDescBy]
  | cons x xs ih => exact pairwise_insertDescBy key x _ ih

theorem filter_insertDescBy_neg {α β : Type} [LinearOrder β] (key : α → β)
    (p : α → Bool) (x : α) (l : List α) (hx : p x = false) :
    (insertDescBy key x l).filter p = l.filter p := by
  induction l with
  | nil => simp [insertDescBy, hx]
  | cons y ys ih =>
    simp only [insertDescBy]
    split
    · rw [List.filter_cons, List.filter_cons, ih]
    · rw [List.filter_cons, hx]
      simp

theorem filter_insertDescBy_pos {α β : Type} [LinearOrder β] (key : α → β)
    (p : α → Bool) (x : α) (l : List α) (hx : p x = true)
    (hkey : ∀ a, p a = true → key a = key x) :
    (insertDescBy key x l).filter p = x :: l.filter p := by
  induction l with
  | nil => simp [insertDescBy, hx]
  | cons y ys ih =>
    simp only [insertDescBy]
    split
    · rename_i hlt
      have hy : p y = false := by
        cases hpy : p y with
        | false => rfl
        | true => exact absurd hlt (by rw [hkey y hpy]; exact lt_irrefl _)
      rw [List.filter_cons, List.filter_cons, hy, ih]
      simp
    · rw [List.filter_cons, hx]
      simp

theorem filter_sortDescBy {α β : Type} [LinearOrder β] (key : α → β)
    (p : α → Bool) (l : List α)
    (hkey : ∀ a b, p a = true → p b = true → key a = key b) :
    (sortDescBy key l).filter p = l.filter p := by
  induction l with
  | nil => rfl
  | cons x xs ih =>
    simp only [sortDescBy]
    cases hx : p x with
    | false =>
      rw [filter_insertDescBy_neg key p x _ hx, ih, List.filter_cons, hx]
      simp
    | true =>
      rw [filter_insertDescBy_pos key p x _ hx (fun a ha => hkey a x ha hx),
        ih, List.filter_cons, hx]
      simp

/-- C2: the router embedded from `src/app/recipe/urls.py` registers the
tags resource but neither the ingredients nor the recipes resource, so
`GET /recipe/ingredients/` and `GET /recipe/recipes/` do not resolve. -/
theorem routerRegistersOnlyTags :
    routeRegistered "tags" = true ∧
    routeRegistered "ingredients" = false ∧
    routeRegistered "recipes" = false := by
  decide

/-- C10: `add(3, 8) = 11`, `subtract(5, 11) = 6`, and `subtract` returns
its second argument minus its first. -/
theorem calcAddAndReversedSubtract :
    add 3 8 = 11 ∧ subtract 5 11 = 6 ∧ ∀ x y : Int, subtract x y = y - x :=
  ⟨rfl, rfl, fun _ _ => rfl⟩

/-- C3 (amended): account creation with an absent or empty email fails with
`ValueError` — the class the repository's own test asserts — and creates no
user record: the store comes back unchanged. -/
theorem createUserNoEmailFailsValueError (p : String) (s : Store) :
    createUser none p s = (Except.error CreateUserError.valueError, s) ∧
    createUser (some "") p s = (Except.error CreateUserError.valueError, s) :=
  ⟨rfl, by simp [createUser]⟩

/-- C3 counterexample: at the input of the repository's own test (absent
email), account creation does not fail with `ValidationError`; it fails
with `ValueError`. -/
theorem createUserNoEmailNotValidationError :
    (createUser none "pass123" store0).1 ≠
      Except.error CreateUserError.validationError ∧
    (createUser none "pass123" store0).1 =
      Except.error CreateUserError.valueError :=
  ⟨by simp [createUser], rfl⟩

/-- C9: POST of a tag, ingredient or recipe with an empty name/title
returns the 400 validation error and performs no mutation: the store, and
hence the row count of every entity type, is unchanged. -/
theorem postEmptyNameRejectedNoMutation (caller : Nat) (s : Store) :
    postTag caller "" s = (Except.error ApiError.validationError, s) ∧
    postIngredient caller "" s = (Except.error ApiError.validationError, s) ∧
    (∀ (m : Option Nat) (c : Option Rat) (tg ing : Option (List Nat)),
      postRecipe caller ⟨some "", m, c, tg, ing⟩ s =
        (Except.error ApiError.validationError, s)) ∧
    httpStatus ApiError.validationError = 400 ∧
    (postTag caller "" s).2.tags.length = s.tags.length ∧
    (postIngredient caller "" s).2.ingredients.length = s.ingredients.length ∧
    (∀ (m : Option Nat) (c : Option Rat) (tg ing : Option (List Nat)),
      (postRecipe caller ⟨some "", m, c, tg, ing⟩ s).2.recipes.length =
        s.recipes.length) := by
  have hr : ∀ (m : Option Nat) (c : Option Rat) (tg ing : Option (List Nat)),
      postRecipe caller ⟨some "", m, c, tg, ing⟩ s =
        (Except.error ApiError.validationError, s) := by
    intro m c tg ing
    cases m <;> cases c <;> simp [postRecipe]
  refine ⟨by simp [postTag], by simp [postIngredient], hr, rfl,
    by simp [postTag], by simp [postIngredient], fun m c tg ing => ?_⟩
  rw [hr]

/-- C1: for distinct users u1 ≠ u2, entities owned by u1 never appear in
u2's list results, and each list endpoint returns exactly the entities
whose owner reference equals the caller. -/
theorem listResultsScopedToCaller (u1 u2 : Nat) (s : Store) (hne : u1 ≠ u2) :
    (∀ t : Tag, t.user = u1 → t ∉ listTags u2 s) ∧
    (∀ i : Ingredient, i.user = u1 → i ∉ listIngredients u2 s) ∧
    (∀ r : Recipe, r.user = u1 → r ∉ listRecipes u2 s) ∧
    (∀ t : Tag, t ∈ listTags u2 s ↔ t ∈ s.tags ∧ t.user = u2) ∧
    (∀ i : Ingredient, i ∈ listIngredients u2 s ↔
      i ∈ s.ingredients ∧ i.user = u2) ∧
    (∀ r : Recipe, r ∈ listRecipes u2 s ↔ r ∈ s.recipes ∧ r.user = u2) := by
  have ht : ∀ t : Tag, t ∈ listTags u2 s ↔ t ∈ s.tags ∧ t.user = u2 := by
    intro t
    simp [listTags, mem_sortDescBy, List.mem_filter]
  have hi : ∀ i : Ingredient, i ∈ listIngredients u2 s ↔
      i ∈ s.ingredients ∧ i.user = u2 := by
    intro i
    simp [listIngredients, mem_sortDescBy, List.mem_filter]
  have hrc : ∀ r : Recipe, r ∈ listRecipes u2 s ↔
      r ∈ s.recipes ∧ r.user = u2 := by
    intro r
    simp [listRecipes, mem_sortDescBy, List.mem_filter]
  refine ⟨?_, ?_, ?_, ht, hi, hrc⟩
  · intro t h1 hmem
    exact hne (h1.symm.trans ((ht t).1 hmem).2)
  · intro i h1 hmem
    exact hne (h1.symm.trans ((hi i).1 hmem).2)
  · intro r h1 hmem
    exact hne (h1.symm.trans ((hrc r).1 hmem).2)

/-- C1 witness at the concrete distinct users 1 and 2 and a concrete
store holding rows of both. -/
theorem listResultsScopedToCaller_witness :
    (1 : Nat) ≠ 2 ∧
    ((∀ t : Tag, t.user = 1 → t ∉ listTags 2 storeTwoUsers) ∧
     (∀ i : Ingredient, i.user = 1 → i ∉ listIngredients 2 storeTwoUsers) ∧
     (∀ r : Recipe, r.user = 1 → r ∉ listRecipes 2 storeTwoUsers) ∧
     (∀ t : Tag, t ∈ listTags 2 storeTwoUsers ↔
       t ∈ storeTwoUsers.tags ∧ t.user = 2) ∧
     (∀ i : Ingredient, i ∈ listIngredients 2 storeTwoUsers ↔
       i ∈ storeTwoUsers.ingredients ∧ i.user = 2) ∧
     (∀ r : Recipe, r ∈ listRecipes 2 storeTwoUsers ↔
       r ∈ storeTwoUsers.recipes ∧ r.user = 2)) :=
  ⟨by decide, listResultsScopedToCaller 1 2 storeTwoUsers (by decide)⟩

/-- C7: each list endpoint's output is sorted descending by the documented
key (name for tags and ingredients, id for recipes) for every store and
insertion order, and the ordering is stable: filtering the output at any
fixed key value returns exactly the caller's rows at that key in store
(insertion) order. -/
theorem listOrderingDescendingStable (u : Nat) (s : Store) :
    (listTags u s).Pairwise (fun a b => b.name ≤ a.name) ∧
    (listIngredients u s).Pairwise (fun a b => b.name ≤ a.name) ∧
    (listRecipes u s).Pairwise (fun a b => b.id ≤ a.id) ∧
    (∀ n : String, (listTags u s).filter (fun t => t.name == n) =
      (s.tags.filter (fun t => t.user == u)).filter (fun t => t.name == n)) ∧
    (∀ n : String, (listIngredients u s).filter (fun i => i.name == n) =
      (s.ingredients.filter (fun i => i.user == u)).filter
        (fun i => i.name == n)) ∧
    (∀ k : Nat, (listRecipes u s).filter (fun r => r.id == k) =
      (s.recipes.filter (fun r => r.user == u)).filter
        (fun r => r.id == k)) := by
  refine ⟨pairwise_sortDescBy _ _, pairwise_sortDescBy _ _,
    pairwise_sortDescBy _ _, fun n => ?_, fun n => ?_, fun k => ?_⟩
  · exact filter_sortDescBy _ _ _ (fun a b ha hb => by
      simp only [beq_iff_eq] at ha hb
      rw [ha, hb])
  · exact filter_sortDescBy _ _ _ (fun a b ha hb => by
      simp only [beq_iff_eq] at ha hb
      rw [ha, hb])
  · exact filter_sortDescBy _ _ _ (fun a b ha hb => by
      simp only [beq_iff_eq] at ha hb
      rw [ha, hb])

/-- C8: a successfully created user's stored email is the full lowercase
of the supplied email (local part and domain). -/
theorem createUserNormalizesEmail (e p : String) (s : Store) (u : User)
    (s' : Store) (h : createUser (some e) p s = (Except.ok u, s')) :
    u.email = lowerString e := by
  simp only [createUser] at h
  split at h
  · exact absurd h (by simp)
  · split at h
    · exact absurd h (by simp)
    · rw [Prod.mk.injEq] at h
      rw [← Except.ok.inj h.1]

/-- C8 witness at the mixed-case email of the repository's own test. -/
theorem createUserNormalizesEmail_witness :
    createUser (some "test@TEStINPUt.cOM") "pass123" store0 =
      (Except.ok normalizedUser, storeAfterSignup) ∧
    normalizedUser.email = lowerString "test@TEStINPUt.cOM" :=
  ⟨by decide, createUserNormalizesEmail "test@TEStINPUt.cOM" "pass123" store0
    normalizedUser storeAfterSignup (by decide)⟩

/-- C4: a full update (PUT) supplying title, time_minutes and cost but
omitting `tags` sets those three fields to the supplied values and clears
the recipe's tag set (and ingredient set) to empty, even when associations
existed before. -/
theorem putOmittingTagsClearsTags (caller rid : Nat) (t : String) (m : Nat)
    (c : Rat) (r : Recipe) (s : Store)
    (hfind : s.recipes.find? (fun x => x.id == rid && x.user == caller) =
      some r)
    (ht : t ≠ "") :
    putRecipe caller rid ⟨some t, some m, some c, none, none⟩ s =
      (Except.ok { r with title := t, time_minutes := m, cost := c,
                          tags := [], ingredients := [] },
       { s with recipes := s.recipes.map (fun x => if x.id == rid
           then { r with title := t, time_minutes := m, cost := c,
                         tags := [], ingredients := [] } else x) }) := by
  simp only [putRecipe, hfind]
  simp [ht]

/-- C4 witness: a concrete PUT omitting `tags` on a recipe that already
has an associated tag. -/
theorem putOmittingTagsClearsTags_witness :
    storeTaggedRecipe.recipes.find? (fun x => x.id == 1 && x.user == 1) =
      some sampleRecipe ∧
    ("Spaget" : String) ≠ "" ∧
    putRecipe 1 1 ⟨some "Spaget", some 60, some 20, none, none⟩
        storeTaggedRecipe =
      (Except.ok { sampleRecipe with title := "Spaget", time_minutes := 60,
                                     cost := 20, tags := [],
                                     ingredients := [] },
       { storeTaggedRecipe with recipes := (storeTaggedRecipe.recipes.map
           (fun x => if x.id == 1
             then { sampleRecipe with title := "Spaget", time_minutes := 60,
                                      cost := 20, tags := [],
                                      ingredients := [] } else x)) }) :=
  ⟨by decide, by decide,
    putOmittingTagsClearsTags 1 1 "Spaget" 60 20 sampleRecipe
      storeTaggedRecipe (by decide) (by decide)⟩

/-- C5: a partial update (PATCH) supplying only a title and a one-element
tag list changes the title, replaces the tag set with exactly that list,
and leaves every unsupplied field of the recipe (time_minutes, cost,
ingredients, owner, id) at its prior value; recipes with another id are
untouched. -/
theorem patchChangesOnlySuppliedFields (caller rid : Nat) (t : String)
    (tg : Nat) (r : Recipe) (s : Store)
    (hfind : s.recipes.find? (fun x => x.id == rid && x.user == caller) =
      some r)
    (ht : t ≠ "") :
    patchRecipe caller rid ⟨some t, none, none, some [tg], none⟩ s =
      (Except.ok { r with title := t, tags := [tg] },
       { s with recipes := s.recipes.map (fun x => if x.id == rid
           then { r with title := t, tags := [tg] } else x) }) := by
  simp only [patchRecipe, hfind]
  simp [ht]

/-- C5 witness: a concrete PATCH of title and tags on a recipe that
already has a different tag. -/
theorem patchChangesOnlySuppliedFields_witness :
    storeTaggedRecipe.recipes.find? (fun x => x.id == 1 && x.user == 1) =
      some sampleRecipe ∧
    ("Chicken Tikka" : String) ≠ "" ∧
    patchRecipe 1 1 ⟨some "Chicken Tikka", none, none, some [2], none⟩
        storeTaggedRecipe =
      (Except.ok { sampleRecipe with title := "Chicken Tikka", tags := [2] },
       { storeTaggedRecipe with recipes := (storeTaggedRecipe.recipes.map
           (fun x => if x.id == 1
             then { sampleRecipe with title := "Chicken Tikka",
                                      tags := [2] } else x)) }) :=
  ⟨by decide, by decide,
    patchChangesOnlySuppliedFields 1 1 "Chicken Tikka" 2 sampleRecipe
      storeTaggedRecipe (by decide) (by decide)⟩

/-- C6: creating a recipe with three distinct existing tags owned by the
caller succeeds, stores exactly those three tag references in the order
supplied, has tag count 3, and reading the recipe back returns it. -/
theorem createRecipeWithTagsRoundTrip (caller t1 t2 t3 : Nat) (t : String)
    (m : Nat) (c : Rat) (s : Store)
    (_h1 : ∃ tg ∈ s.tags, tg.id = t1 ∧ tg.user = caller)
    (_h2 : ∃ tg ∈ s.tags, tg.id = t2 ∧ tg.user = caller)
    (_h3 : ∃ tg ∈ s.tags, tg.id = t3 ∧ tg.user = caller)
    (d12 : t1 ≠ t2) (d13 : t1 ≠ t3) (d23 : t2 ≠ t3) (ht : t ≠ "")
    (hwf : ∀ x ∈ s.recipes, x.id < s.nextRecipeId) :
    ∃ r : Recipe, ∃ s' : Store,
      postRecipe caller ⟨some t, some m, some c, some [t1, t2, t3], none⟩ s =
        (Except.ok r, s') ∧
      r.tags = [t1, t2, t3] ∧ tagCount r = 3 ∧
      getRecipe caller r.id s' = Except.ok r := by
  refine ⟨⟨s.nextRecipeId, t, m, c, caller, [t1, t2, t3], []⟩,
    ⟨s.users, s.tags, s.ingredients,
      s.recipes ++ [⟨s.nextRecipeId, t, m, c, caller, [t1, t2, t3], []⟩],
      s.nextUserId, s.nextTagId, s.nextIngredientId, s.nextRecipeId + 1⟩,
    ?_, rfl, ?_, ?_⟩
  · simp [postRecipe, ht]
  · have hnd : ([t1, t2, t3] : List Nat).Nodup := by
      simp [d12, d13, d23]
    simp [tagCount, List.dedup_eq_self.mpr hnd]
  · have hfind : (s.recipes ++
        [(⟨s.nextRecipeId, t, m, c, caller, [t1, t2, t3], []⟩ : Recipe)]).find?
          (fun x => x.id == s.nextRecipeId && x.user == caller) =
        some ⟨s.nextRecipeId, t, m, c, caller, [t1, t2, t3], []⟩ := by
      rw [List.find?_append]
      have h0 : s.recipes.find?
          (fun x => x.id == s.nextRecipeId && x.user == caller) = none := by
        rw [List.find?_eq_none]
        intro x hx
        simp only [Bool.and_eq_true, beq_iff_eq, not_and]
        intro hid
        exact absurd hid (Nat.ne_of_lt (hwf x hx))
      rw [h0]
      simp [List.find?]
    simp only [getRecipe, hfind]

/-- C6 witness: a concrete create with the three distinct tags 10, 20, 30
owned by user 1. -/
theorem createRecipeWithTagsRoundTrip_witness :
    (∃ tg ∈ storeThreeTags.tags, tg.id = 10 ∧ tg.user = 1) ∧
    (∃ tg ∈ storeThreeTags.tags, tg.id = 20 ∧ tg.user = 1) ∧
    (∃ tg ∈ storeThreeTags.tags, tg.id = 30 ∧ tg.user = 1) ∧
    (10 : Nat) ≠ 20 ∧ (10 : Nat) ≠ 30 ∧ (20 : Nat) ≠ 30 ∧
    ("Food" : String) ≠ "" ∧
    (∀ x ∈ storeThreeTags.recipes, x.id < storeThreeTags.nextRecipeId) ∧
    (∃ r : Recipe, ∃ s' : Store,
      postRecipe 1 ⟨some "Food", some 4, some 5, some [10, 20, 30], none⟩
          storeThreeTags = (Except.ok r, s') ∧
      r.tags = [10, 20, 30] ∧ tagCount r = 3 ∧
      getRecipe 1 r.id s' = Except.ok r) :=
  ⟨by decide, by decide, by decide, by decide, by decide, by decide,
    by decide, by decide,
    createRecipeWithTagsRoundTrip 1 10 20 30 "Food" 4 5 storeThreeTags
      (by decide) (by decide) (by decide) (by decide) (by decide)
      (by decide) (by decide) (by decide)⟩

end RecipeApi
